import Mathlib

/-!
Verification model of `fakeldap.py` (the `MockLDAP` test double).

The Python module is shallowly embedded: Python values that flow through the
mock (strings, ints, None, lists, tuples, attribute dictionaries, opaque
objects such as `sys.stdout`, and `SimplePagedResultsControl` instances) are
modelled by the inductive `PyVal`; every internal method (`_add_s`,
`_modify_s`, `_compare_s`, `_simple_bind_s`, `_delete_s`, `_rename_s`,
`_search_s`, `_simple_onelevel_search`, `_mangle_record`,
`_get_return_value`) is translated to a Lean function, and the public API
(recording wrappers) becomes a step function on an explicit `MState` record.

Python exceptions are modelled by `PyErr`; a raising call returns
`Except.error`.  Exception messages (the strings passed to the exception
constructors) are elided.  String operations are implemented on `List Char`
(`String.data`) so that every definition is executable and kernel-reducible;
`str.lower` and the regex class `\w` are modelled on their ASCII fragment,
which covers every distinguished name and filter the module manipulates.
-/

mutual

/-- A Python value, as it appears in the directory, in recorded calls and in
preset return values.  `obj tag` stands for an opaque non-JSON-serializable
object (for example `sys.stdout`, the default `trace_file` argument of
`initialize`); `ctrl c` stands for an `ldap.controls.SimplePagedResultsControl`
whose `cookie` attribute is `c` (`none` models Python `None`). -/
inductive PyVal where
  | str (s : String)
  | int (n : Int)
  | pnone
  | obj (tag : String)
  | ctrl (cookie : Option String)
  | list (vs : PyList)
  | tup (vs : PyList)
  | dict (kvs : PyDict)
deriving DecidableEq

/-- A Python list or tuple payload (a sequence of `PyVal`). -/
inductive PyList where
  | nil
  | cons (hd : PyVal) (tl : PyList)
deriving DecidableEq

/-- A Python dict payload with string keys, in insertion order. -/
inductive PyDict where
  | nil
  | cons (key : String) (val : PyVal) (tl : PyDict)
deriving DecidableEq

end

/-- Build a `PyList` from a Lean list. -/
def PyList.ofList : List PyVal → PyList
  | [] => .nil
  | v :: rest => .cons v (PyList.ofList rest)

/-- Convert a `PyList` back to a Lean list. -/
def PyList.toList : PyList → List PyVal
  | .nil => []
  | .cons v rest => v :: PyList.toList rest

/-- Build a `PyDict` from a Lean association list. -/
def PyDict.ofList : List (String × PyVal) → PyDict
  | [] => .nil
  | kv :: rest => .cons kv.1 kv.2 (PyDict.ofList rest)

/-- The Python exceptions the module can raise.  `presetException tag` stands
for an arbitrary exception object injected through `set_return_value`;
exception messages are not modelled. -/
inductive PyErr where
  | keyError
  | typeError
  | valueError
  | attributeError
  | indexError
  | unboundLocalError
  | invalidCredentials
  | noSuchObject
  | alreadyExists
  | presetReturnRequired
  | presetException (tag : String)
deriving DecidableEq

/-- A value stored in `return_value_maps`: either a plain value to return or
an `Exception` instance, which `_get_return_value` raises instead
(`isinstance(value, Exception)`). -/
inductive RetVal where
  | val (v : PyVal)
  | exc (e : PyErr)
deriving DecidableEq

mutual

/-- Python `==` on `PyVal` (`pyListEq` and `pyDictEq` are the clauses for
sequence and dict payloads).  Values of different shapes compare unequal, and
a list never equals a tuple, exactly as in Python.  Python compares dicts
without regard to key order; every dict comparison performed by the module
compares dicts built in identical insertion order, so the structural clause
used here agrees with it on all reachable comparisons. -/
def pyEq : PyVal → PyVal → Bool
  | .str a, .str b => a = b
  | .int a, .int b => a = b
  | .pnone, .pnone => true
  | .obj a, .obj b => a = b
  | .ctrl a, .ctrl b => a = b
  | .list a, .list b => pyListEq a b
  | .tup a, .tup b => pyListEq a b
  | .dict a, .dict b => pyDictEq a b
  | _, _ => false

/-- Elementwise Python `==` on sequence payloads. -/
def pyListEq : PyList → PyList → Bool
  | .nil, .nil => true
  | .cons a as, .cons b bs => pyEq a b && pyListEq as bs
  | _, _ => false

/-- Python `==` on dict payloads (see `pyEq` for the key-order caveat). -/
def pyDictEq : PyDict → PyDict → Bool
  | .nil, .nil => true
  | .cons k a as, .cons k2 b bs => k = k2 && pyEq a b && pyDictEq as bs
  | _, _ => false

end

/-- Python `is` (object identity), used by `_modify_s` in the `MOD_DELETE`
branch (`value is row[i]`).  For the immutable scalar values compared there
(interned strings and the `None` singleton) identity coincides with equality,
which is how it is modelled. -/
def pyIs (a b : PyVal) : Bool := pyEq a b

/-- Whether the first character list is a prefix of the second (character by
character, the way Python compares string slices). -/
def startsL : List Char → List Char → Bool
  | [], _ => true
  | _ :: _, [] => false
  | a :: as, b :: bs => a = b && startsL as bs

/-- Python `str.endswith`: the first list is a suffix of the second. -/
def endsL (suffx s : List Char) : Bool := startsL suffx.reverse s.reverse

/-- Contiguous-substring test, Python `needle in haystack` for strings. -/
def subL (needle : List Char) : List Char → Bool
  | [] => needle.isEmpty
  | c :: rest => startsL needle (c :: rest) || subL needle rest

/-- Python `str.lower` (ASCII fragment). -/
def lowerL : List Char → List Char := List.map Char.toLower

/-- Python `str.split(sep)` for a one-character separator: splits at every
occurrence, keeping empty pieces, and yields one piece for an empty input. -/
def splitChar (c : Char) : List Char → List (List Char)
  | [] => [[]]
  | a :: rest =>
    match splitChar c rest with
    | [] => [[]]
    | g :: gs => if a = c then [] :: g :: gs else (a :: g) :: gs

/-- Python `sep.join(pieces)` for a one-character separator. -/
def joinChar (c : Char) : List (List Char) → List Char
  | [] => []
  | [x] => x
  | x :: rest => x ++ c :: joinChar c rest

/-- Python `str.strip(chars)`: removes from both ends every leading and
trailing character that belongs to the character SET `cs` (not the literal
substring - the source of the one-level search depth bug). -/
def stripEnds (cs : List Char) (s : List Char) : List Char :=
  ((s.dropWhile (fun c => cs.contains c)).reverse.dropWhile
    (fun c => cs.contains c)).reverse

/-- A character matched by the regex class `\w` (ASCII fragment). -/
def isWordChar (c : Char) : Bool := c.isAlphanum || c = '_'

/-- Membership of a value in a sequence payload, by Python `==`. -/
def pyInSeq (value : PyVal) : PyList → Bool
  | .nil => false
  | .cons h t => pyEq value h || pyInSeq value t

/-- Key membership in a dict payload. -/
def pyDictHasKey (k : String) : PyDict → Bool
  | .nil => false
  | .cons k2 _ rest => k = k2 || pyDictHasKey k rest

/-- Python `value in container`.  Sequence membership uses `==` on elements;
string containment is the contiguous-substring test and requires a string
operand on the left (`TypeError` otherwise); dict containment tests keys;
`in` applied to an int, `None` or an opaque object raises `TypeError`. -/
def pyIn (value container : PyVal) : Except PyErr Bool :=
  match container with
  | .list vs => .ok (pyInSeq value vs)
  | .tup vs => .ok (pyInSeq value vs)
  | .str s =>
    match value with
    | .str t => .ok (subL t.data s.data)
    | _ => .error .typeError
  | .dict kvs =>
    match value with
    | .str t => .ok (pyDictHasKey t kvs)
    | _ => .ok false
  | .int _ => .error .typeError
  | .pnone => .error .typeError
  | .obj _ => .error .typeError
  | .ctrl _ => .error .typeError

mutual

/-- The normal form that `json.dumps(..., cls=BytesDump)` induces on argument
signatures: serialization is injective on serializable values once tuples are
replaced by lists (both serialize to JSON arrays), so two argument values
produce the same `args_str` exactly when their normal forms are equal.
Opaque objects and control objects are not serializable: `json.dumps` raises
`TypeError`, modelled by `none`. -/
def jsonNorm : PyVal → Option PyVal
  | .str s => some (.str s)
  | .int n => some (.int n)
  | .pnone => some .pnone
  | .obj _ => none
  | .ctrl _ => none
  | .list vs => (jsonNormList vs).map .list
  | .tup vs => (jsonNormList vs).map .list
  | .dict kvs => (jsonNormDict kvs).map .dict

/-- JSON normal form of a sequence payload. -/
def jsonNormList : PyList → Option PyList
  | .nil => some .nil
  | .cons v rest => do pure (.cons (← jsonNorm v) (← jsonNormList rest))

/-- JSON normal form of a dict payload (key order is preserved, as
`json.dumps` does without `sort_keys`). -/
def jsonNormDict : PyDict → Option PyDict
  | .nil => some .nil
  | .cons k v rest => do pure (.cons k (← jsonNorm v) (← jsonNormDict rest))

end

/-- The per-value step of `_mangle_record`: a list value becomes a tuple
(`value = tuple(value)`), anything else is kept. -/
def mangleVal : PyVal → PyVal
  | .list vs => .tup vs
  | v => v

/-!
The directory store.  The constructor documents `directory` as a dict mapping
distinguished names to attribute dictionaries, so the store is typed
accordingly: an `Entry` is an attribute dict in insertion order, a `Dir` maps
dns to entries in insertion order.  When `MockLDAP` is built without a
(non-empty) seed, `self.directory` is `defaultdict(lambda: \x7b\x7d)`: a plain
`[]`-lookup of an absent dn then INSERTS an empty entry and returns it
instead of raising `KeyError`.  That behaviour is kept in the model through
the `isDefault` flag of the state and `dirGetItem` below.
-/

/-- An attribute dictionary: attribute name to value, in insertion order. -/
abbrev Entry := List (String × PyVal)

/-- The directory store: distinguished name to entry, in insertion order. -/
abbrev Dir := List (String × Entry)

/-- Dict lookup without insertion (Python `d.get(k)` / `k in d`). -/
def entryGet : Entry → String → Option PyVal
  | [], _ => none
  | kv :: rest, k => if kv.1 = k then some kv.2 else entryGet rest k

/-- Dict assignment `d[k] = v`: overwrites in place (keeping the key's
position) or appends a new key at the end, as Python dicts do. -/
def entrySet : Entry → String → PyVal → Entry
  | [], k, v => [(k, v)]
  | kv :: rest, k, v => if kv.1 = k then (k, v) :: rest else kv :: entrySet rest k v

/-- Dict deletion `del d[k]`. -/
def entryDel (e : Entry) (k : String) : Entry := e.filter (fun kv => kv.1 ≠ k)

/-- Lookup in the directory without insertion. -/
def dirGet : Dir → String → Option Entry
  | [], _ => none
  | de :: rest, dn => if de.1 = dn then some de.2 else dirGet rest dn

/-- Assignment `self.directory[dn] = entry`. -/
def dirSet : Dir → String → Entry → Dir
  | [], dn, e => [(dn, e)]
  | de :: rest, dn, e => if de.1 = dn then (dn, e) :: rest else de :: dirSet rest dn e

/-- Deletion `del self.directory[dn]`. -/
def dirDel (d : Dir) (dn : String) : Dir := d.filter (fun de => de.1 ≠ dn)

/-- The subscript lookup `self.directory[dn]`.  On a seeded plain dict an
absent dn yields `none` (Python raises `KeyError`); on the `defaultdict`
default store an absent dn inserts a fresh empty entry at the end and
returns it. -/
def dirGetItem (isDef : Bool) (d : Dir) (dn : String) : Option Entry × Dir :=
  match dirGet d dn with
  | some e => (some e, d)
  | none => if isDef then (some [], d ++ [(dn, [])]) else (none, d)

/-- Convert an entry to the `PyVal` dict that appears inside search results. -/
def PyDict.ofEntry : Entry → PyDict
  | [] => .nil
  | kv :: rest => .cons kv.1 kv.2 (PyDict.ofEntry rest)

/-- A list of `(dn, attrs)` search results as the Python value the search
methods return. -/
def resultsToPy (l : List (String × Entry)) : PyVal :=
  .list (PyList.ofList (l.map (fun p =>
    .tup (PyList.ofList [.str p.1, .dict (PyDict.ofEntry p.2)]))))

/-- The success marker `(97, [])` returned by `_simple_bind_s`. -/
def marker97 : PyVal := .tup (PyList.ofList [.int 97, .list .nil])

/-- The success marker `(103, [])` returned by `_modify_s`. -/
def marker103 : PyVal := .tup (PyList.ofList [.int 103, .list .nil])

/-- The success marker `(107, [])` returned by `_delete_s`. -/
def marker107 : PyVal := .tup (PyList.ofList [.int 107, .list .nil])

/-- The success marker `(109, [])` returned by `_rename_s`. -/
def marker109 : PyVal := .tup (PyList.ofList [.int 109, .list .nil])

/-- The success marker `(105, [], len(self.calls), [])` returned by `_add_s`. -/
def marker105 (callsLen : Nat) : PyVal :=
  .tup (PyList.ofList [.int 105, .list .nil, .int (callsLen : Int), .list .nil])

/-- Translation of `MockLDAP._compare_s`.  Only `KeyError` (absent dn on a
seeded store, or absent attribute) is caught and turned into `0`; a
`TypeError` raised by `in` propagates.  On the default store the dn lookup
itself never raises but inserts an empty entry (second component). -/
def mockCompareS (isDef : Bool) (d : Dir) (dn attr : String) (value : PyVal) :
    Except PyErr Nat × Dir :=
  match dirGetItem isDef d dn with
  | (none, d1) => (.ok 0, d1)
  | (some entry, d1) =>
    match entryGet entry attr with
    | none => (.ok 0, d1)
    | some container =>
      match pyIn value container with
      | .error e => (.error e, d1)
      | .ok b => (.ok (if b then 1 else 0), d1)

/-- Translation of `MockLDAP._simple_bind_s`: anonymous bind (both arguments
empty) succeeds outright; otherwise success is decided by
`_compare_s(who.lower(), 'userPassword', cred)`, and failure raises
`ldap.INVALID_CREDENTIALS`. -/
def mockSimpleBindS (isDef : Bool) (d : Dir) (who cred : String) :
    Except PyErr PyVal × Dir :=
  if who = "" ∧ cred = "" then (.ok marker97, d)
  else
    match mockCompareS isDef d (String.mk (lowerL who.data)) "userPassword" (.str cred) with
    | (.error e, d1) => (.error e, d1)
    | (.ok n, d1) =>
      if n ≠ 0 then (.ok marker97, d1) else (.error .invalidCredentials, d1)

/-- The index scan of the `MOD_DELETE` list branch:
`for i in range(len(row)): if value is row[i]: del row[i]`.
The range is fixed at the original length while `del row[i]` shrinks the
list, so the scan hits `IndexError` as soon as any element was deleted; the
deletions performed up to that point remain (first component carries the
error, second the mutated list). -/
def modDeleteScanAux (value : PyVal) : List Nat → List PyVal → Option PyErr × List PyVal
  | [], cur => (none, cur)
  | i :: rest, cur =>
    if h : i < cur.length then
      if pyIs value (cur.get ⟨i, h⟩) then modDeleteScanAux value rest (cur.eraseIdx i)
      else modDeleteScanAux value rest cur
    else (some .indexError, cur)

/-- Run the `MOD_DELETE` scan over all indices of the original row. -/
def modDeleteScan (value : PyVal) (row : List PyVal) : Option PyErr × List PyVal :=
  modDeleteScanAux value (List.range row.length) row

/-- One modification item of `_modify_s` applied to the (aliased) entry.
`op == 0` (`MOD_ADD`) executes `key.append(value)`: `key` is the attribute
NAME, a string, and Python strings have no `append`, so the item always
raises `AttributeError`.  `op == 1` (`MOD_DELETE`) reads `row = entry[key]`
(an uncaught `KeyError` if absent); a list row undergoes the broken index
scan, any other row causes `del entry[key]` regardless of `value`.
`op == 2` (`MOD_REPLACE`) assigns `entry[key] = value`.  Any other op code
does nothing.  Mutations stay in the entry even when the item errors,
because the Python entry object is aliased into the directory. -/
def applyModItem (entry : Entry) (item : Int × String × PyVal) : Option PyErr × Entry :=
  match item with
  | (op, key, value) =>
    if op = 0 then (some .attributeError, entry)
    else if op = 1 then
      match entryGet entry key with
      | none => (some .keyError, entry)
      | some row =>
        match row with
        | .list vs =>
          let scanned := modDeleteScan value vs.toList
          (scanned.1, entrySet entry key (.list (PyList.ofList scanned.2)))
        | _ => (none, entryDel entry key)
    else if op = 2 then (none, entrySet entry key value)
    else (none, entry)

/-- Apply the modification items in order, stopping at the first error but
keeping the mutations already performed. -/
def applyModList (entry : Entry) : List (Int × String × PyVal) → Option PyErr × Entry
  | [] => (none, entry)
  | item :: rest =>
    match applyModItem entry item with
    | (some e, entry2) => (some e, entry2)
    | (none, entry2) => applyModList entry2 rest

/-- Translation of `MockLDAP._modify_s`.  An absent dn raises
`ldap.NO_SUCH_OBJECT` on a seeded store (on the default store the lookup
inserts an empty entry instead).  The entry object is aliased into the
directory, so modifications applied before a failing item persist. -/
def mockModifyS (isDef : Bool) (d : Dir) (dn : String)
    (modAttrs : List (Int × String × PyVal)) : Except PyErr PyVal × Dir :=
  match dirGetItem isDef d dn with
  | (none, d1) => (.error .noSuchObject, d1)
  | (some entry, d1) =>
    let applied := applyModList entry modAttrs
    let d2 := dirSet d1 dn applied.2
    match applied.1 with
    | some e => (.error e, d2)
    | none => (.ok marker103, d2)

/-- Translation of `MockLDAP._rename_s`.  The parent of `dn` is everything
after its first comma; `superior` (when truthy) replaces it.  `newrdn` must
split on `=` into exactly two parts (`ValueError` otherwise, raised before
any mutation); the entry's `attr` is set to `value`, the entry is stored
under the new dn and the old dn is removed. -/
def mockRenameS (isDef : Bool) (d : Dir) (dn newrdn : String)
    (superior : Option String) : Except PyErr PyVal × Dir :=
  match dirGetItem isDef d dn with
  | (none, d1) => (.error .noSuchObject, d1)
  | (some entry, d1) =>
    let basedn :=
      match superior with
      | none => String.mk (joinChar ',' ((splitChar ',' dn.data).drop 1))
      | some s =>
        if s = "" then String.mk (joinChar ',' ((splitChar ',' dn.data).drop 1)) else s
    let newdn := newrdn ++ "," ++ basedn
    match splitChar '=' newrdn.data with
    | [attrL, valueL] =>
      let entry2 := entrySet entry (String.mk attrL) (.str (String.mk valueL))
      (.ok marker109, dirDel (dirSet d1 newdn entry2) dn)
    | _ => (.error .valueError, d1)

/-- Translation of `MockLDAP._delete_s`: `del self.directory[dn]`, with
`KeyError` turned into `ldap.NO_SUCH_OBJECT`  (a `defaultdict` raises
`KeyError` on `del` of an absent key just like a plain dict). -/
def mockDeleteS (d : Dir) (dn : String) : Except PyErr PyVal × Dir :=
  match dirGet d dn with
  | some _ => (.ok marker107, dirDel d dn)
  | none => (.error .noSuchObject, d)

/-- Translation of `MockLDAP._add_s`.  The (already mangled) record is folded
into an attribute dict; then `self.directory[dn]` is probed: on a hit the
method raises `ldap.ALREADY_EXISTS`, on `KeyError` it stores the entry and
returns `(105, [], len(self.calls), [])`.  On the default store the probe
never raises `KeyError`: it inserts an empty entry under `dn` and the method
always raises `ALREADY_EXISTS`. -/
def mockAddS (isDef : Bool) (d : Dir) (dn : String)
    (record : List (String × PyVal)) (callsLen : Nat) : Except PyErr PyVal × Dir :=
  let entry := record.foldl (fun e kv => entrySet e kv.1 kv.2) []
  match dirGetItem isDef d dn with
  | (some _, d1) => (.error .alreadyExists, d1)
  | (none, d1) => (.ok (marker105 callsLen), dirSet d1 dn entry)

/-- Whether `filterstr` matches the anchored regex
`\(\w+=.+\)$` of `_search_s` (compiled from `simple_query_regex`): an opening
parenthesis, a non-empty run of word characters, `=`, at least one character
other than a newline, and a closing parenthesis at the end of the string
(`$` also matches just before one final trailing newline). -/
def regexMatchSimpleQuery (s : String) : Bool :=
  let cs := if s.data.getLast? = some '\n' then s.data.dropLast else s.data
  (cs.head? == some '(') &&
    (let rest := cs.tail
     let w := rest.takeWhile isWordChar
     let r2 := rest.drop w.length
     (!w.isEmpty) && (r2.head? == some '=') &&
       (let body := r2.tail
        (body.getLast? == some ')') && (!body.dropLast.isEmpty) &&
          (!body.dropLast.contains '\n')))

/-- The per-entry acceptance test of `_simple_onelevel_search`: the dn must
end with `,` + base, and `dn.strip(',' + base)` - a strip by CHARACTER SET,
not suffix removal - must leave no comma (the "one level" test), and the
entry's attribute must equal the filter value directly, or be a
one-element Python list whose sole element equals it. -/
def onelevelKeeps (base name val dn : String) (attrs : Entry) : Bool :=
  endsL (',' :: base.data) dn.data &&
  !((stripEnds (',' :: base.data) dn.data).contains ',') &&
  ((match entryGet attrs name with
    | some v => pyEq v (.str val)
    | none => false) ||
   (match entryGet attrs name with
    | some (.list (.cons x .nil)) => pyEq x (.str val)
    | _ => false))

/-- Translation of `MockLDAP._simple_onelevel_search`: the filter body
`filterstr[1:-1]` is split on EVERY `=` and unpacked into exactly two names
(`ValueError` otherwise - reachable, since the regex admits filters such as
`(a=b=c)`); the directory is scanned in insertion order and matching
entries are collected. -/
def mockSimpleOnelevelSearch (d : Dir) (base filterstr : String) :
    Except PyErr PyVal :=
  match splitChar '=' ((filterstr.data.drop 1).dropLast) with
  | [nameL, valL] =>
    .ok (resultsToPy (d.filter (fun p =>
      onelevelKeeps base (String.mk nameL) (String.mk valL) p.1 p.2)))
  | _ => .error .valueError

/-- Translation of `MockLDAP._search_s`.  Base scope accepts only the
universal filter `(objectClass=*)` and returns the single entry at `base`
(`NO_SUCH_OBJECT` if absent - `self.directory.get` never inserts, even on
the default store).  One-level scope accepts only filters matching the
simple-query regex.  Any other scope returns `self.directory.get` of the
key `search:` + filterstr, defaulting to the empty list.  The `attrlist` and
`attrsonly` parameters are used by the source only inside error-message
strings, which the model elides. -/
def mockSearchS (d : Dir) (base : String) (scope : Int) (filterstr : String) :
    Except PyErr PyVal :=
  if scope = 0 then
    if filterstr ≠ "(objectClass=*)" then .error .presetReturnRequired
    else
      match dirGet d base with
      | none => .error .noSuchObject
      | some attrs => .ok (resultsToPy [(base, attrs)])
  else if scope = 1 then
    if regexMatchSimpleQuery filterstr then mockSimpleOnelevelSearch d base filterstr
    else .error .presetReturnRequired
  else
    .ok (match dirGet d ("search:" ++ filterstr) with
         | some e => .dict (PyDict.ofEntry e)
         | none => .list .nil)

/-- Translation of `MockLDAP._mangle_record`: each value that is a list
becomes a tuple so the record can be used in a preset signature. -/
def mockMangleRecord (record : List (String × PyVal)) : List (String × PyVal) :=
  record.map (fun kv => (kv.1, mangleVal kv.2))

/-!
The preset response table (`set_return_value` / `_get_return_value`) and the
instance state.  Preset keys are `json.dumps(arguments, cls=BytesDump)`
strings; the model keys the table by the JSON normal form `jsonNorm` instead,
which identifies two argument values exactly when their serializations are
equal.  (`_get_return_value` on a missing api name also inserts an empty
inner dict, because `return_value_maps` is a `defaultdict`; that empty inner
dict is observationally inert and the model elides it, keeping lookups pure.)
-/

/-- The preset table: api name to a dict from normalized argument signature
to the stored value. -/
abbrev RVMap := List (String × List (PyVal × RetVal))

/-- Lookup in an inner preset dict (keys are already normalized, so plain
equality of normal forms decides a hit). -/
def innerGet : List (PyVal × RetVal) → PyVal → Option RetVal
  | [], _ => none
  | kv :: rest, k => if kv.1 = k then some kv.2 else innerGet rest k

/-- Assignment in an inner preset dict (overwrite or append, dict style). -/
def innerSet : List (PyVal × RetVal) → PyVal → RetVal → List (PyVal × RetVal)
  | [], k, v => [(k, v)]
  | kv :: rest, k, v => if kv.1 = k then (k, v) :: rest else kv :: innerSet rest k v

/-- Lookup `return_value_maps[api_name][args_str]`. -/
def rvmGet (m : RVMap) (api : String) (k : PyVal) : Option RetVal :=
  match m with
  | [] => none
  | av :: rest => if av.1 = api then innerGet av.2 k else rvmGet rest api k

/-- Assignment `return_value_maps[api_name][args_str] = value` (the outer
`defaultdict` creates the inner dict on demand). -/
def rvmSet (m : RVMap) (api : String) (k : PyVal) (v : RetVal) : RVMap :=
  match m with
  | [] => [(api, [(k, v)])]
  | av :: rest =>
    if av.1 = api then (av.1, innerSet av.2 k v) :: rest else av :: rvmSet rest api k v

/-- Translation of `MockLDAP.set_return_value`: serialize the arguments
(raising `TypeError` on non-serializable ones) and store the value under
the resulting signature. -/
def mockSetReturnValue (m : RVMap) (api : String) (args : PyVal) (v : RetVal) :
    Except PyErr RVMap :=
  match jsonNorm args with
  | none => .error .typeError
  | some k => .ok (rvmSet m api k v)

/-- Translation of `MockLDAP._get_return_value`: serialize the arguments,
look the signature up, raise a stored `Exception` and return a stored value;
a miss yields `none` (Python `None`), which every caller treats as "no
preset".  A stored Python `None` is returned as `some .pnone` and is
indistinguishable from a miss to the callers. -/
def mockGetReturnValue (m : RVMap) (api : String) (args : PyVal) :
    Except PyErr (Option PyVal) :=
  match jsonNorm args with
  | none => .error .typeError
  | some k =>
    match rvmGet m api k with
    | some (.exc e) => .error e
    | some (.val v) => .ok (some v)
    | none => .ok none

/-- Per-call async bookkeeping of `search_ext` / `result3`: the stored
controls and, once the search ran, its result (`none` while the `data` key
is missing). -/
abbrev AsyncMap := List (Int × PyVal × Option PyVal)

/-- Lookup `self._async_results[msgid]`. -/
def asyncGet : AsyncMap → Int → Option (PyVal × Option PyVal)
  | [], _ => none
  | e :: rest, m => if e.1 = m then some e.2 else asyncGet rest m

/-- Store the `data` value of an async entry. -/
def asyncSetData : AsyncMap → Int → PyVal → AsyncMap
  | [], _, _ => []
  | e :: rest, m, v => if e.1 = m then (e.1, e.2.1, some v) :: rest else e :: asyncSetData rest m v

/-- Deletion `del self._async_results[msgid]`. -/
def asyncDel (l : AsyncMap) (m : Int) : AsyncMap := l.filter (fun e => e.1 ≠ m)

/-- Dict assignment on the `options` dict (keys compared by Python `==`). -/
def pyAssocSet : List (PyVal × PyVal) → PyVal → PyVal → List (PyVal × PyVal)
  | [], k, v => [(k, v)]
  | kv :: rest, k, v => if pyEq kv.1 k then (k, v) :: rest else kv :: pyAssocSet rest k v

/-- The whole mutable state of a `MockLDAP` instance. -/
structure MState where
  directory : Dir
  isDefault : Bool
  cookie : Int
  asyncResults : AsyncMap
  calls : List (String × List (String × PyVal))
  returnValueMaps : RVMap
  options : List (PyVal × PyVal)
  tlsEnabled : Bool
deriving DecidableEq

/-- Translation of `MockLDAP.__init__` followed by `reset()`.  The guard is
`if directory:`, a TRUTHINESS test: both a missing argument and an empty
seed dict leave `self.directory` the auto-inserting `defaultdict`. -/
def initState (seed : Option Dir) : MState :=
  match seed with
  | some d =>
    if d = [] then ⟨[], true, 0, [], [], [], [], false⟩
    else ⟨d, false, 0, [], [], [], [], false⟩
  | none => ⟨[], true, 0, [], [], [], [], false⟩

/-- Constant `ldap.RES_ANY`, the default `msgid` argument of `result3`. -/
def ldapResAny : Int := -1

/-- Constant `ldap.RES_SEARCH_RESULT`, the tag returned by `result3`. -/
def ldapResSearchResult : Int := 101

/-- One public API call, with every parameter explicit (callers that rely on
a Python default pass that default here). -/
inductive Op where
  | setOption (option invalue : PyVal)
  | initializeOp (uri trace_level trace_file trace_stack_limit : PyVal)
  | simpleBindS (who cred : String)
  | searchExt (base : String) (scope : Int) (filterstr : String)
      (attrlist : PyVal) (attrsonly : Int) (serverctrls : PyVal)
      (clientctrls : PyVal) (timeout : PyVal) (sizelimit : PyVal)
  | result3 (msgid : Int) (allArg : PyVal) (timeout : PyVal)
  | searchS (base : String) (scope : Int) (filterstr : String)
      (attrlist : PyVal) (attrsonly : Int)
  | startTlsS
  | compareS (dn attr : String) (value : PyVal)
  | modifyS (dn : String) (modAttrs : List (Int × String × PyVal))
  | deleteS (dn : String)
  | addS (dn : String) (record : List (String × PyVal))
  | renameS (dn newrdn : String) (superior : Option String)
  | unbindS
deriving DecidableEq

/-- The api name under which an operation records itself and looks presets
up. -/
def opName : Op → String
  | .setOption _ _ => "set_option"
  | .initializeOp _ _ _ _ => "initialize"
  | .simpleBindS _ _ => "simple_bind_s"
  | .searchExt _ _ _ _ _ _ _ _ _ => "search_ext"
  | .result3 _ _ _ => "result3"
  | .searchS _ _ _ _ _ => "search_s"
  | .startTlsS => "start_tls_s"
  | .compareS _ _ _ => "compare_s"
  | .modifyS _ _ => "modify_s"
  | .deleteS _ => "delete_s"
  | .addS _ _ => "add_s"
  | .renameS _ _ _ => "rename_s"
  | .unbindS => "unbind_s"

/-- An add/modify record rendered as the Python value the caller passed
(a list of tuples). -/
def recordToPyList (record : List (String × PyVal)) : PyVal :=
  .list (PyList.ofList (record.map (fun kv => .tup (PyList.ofList [.str kv.1, kv.2]))))

/-- A mangled record rendered as a tuple of tuples (the shape
`_mangle_record` returns and `add_s` uses in the preset signature). -/
def recordToPyTup (record : List (String × PyVal)) : PyVal :=
  .tup (PyList.ofList (record.map (fun kv => .tup (PyList.ofList [.str kv.1, kv.2]))))

/-- A modification list rendered as the Python value the caller passed. -/
def modAttrsToPyList (l : List (Int × String × PyVal)) : PyVal :=
  .list (PyList.ofList (l.map (fun t => .tup (PyList.ofList [.int t.1, .str t.2.1, t.2.2]))))

/-- A modification list after `mod_attrs = tuple(mod_attrs)` (the shape used
in the preset signature of `modify_s`). -/
def modAttrsToPyTup (l : List (Int × String × PyVal)) : PyVal :=
  .tup (PyList.ofList (l.map (fun t => .tup (PyList.ofList [.int t.1, .str t.2.1, t.2.2]))))

/-- The `superior` argument of `rename_s` as a Python value. -/
def superiorToPy : Option String → PyVal
  | none => .pnone
  | some s => .str s

/-- The argument dictionary each wrapper passes to `_record_call`, defaulted
arguments included (`start_tls_s` calls `_record_call` with nothing - it
never records - so its row here is empty and unused). -/
def opRecordArgs : Op → List (String × PyVal)
  | .setOption o i => [("option", o), ("invalue", i)]
  | .initializeOp uri tl tf tsl =>
    [("uri", uri), ("trace_level", tl), ("trace_file", tf), ("trace_stack_limit", tsl)]
  | .simpleBindS who cred => [("who", .str who), ("cred", .str cred)]
  | .searchExt base scope filterstr attrlist attrsonly sctrls cctrls tmo szl =>
    [("base", .str base), ("scope", .int scope), ("filterstr", .str filterstr),
     ("attrlist", attrlist), ("attrsonly", .int attrsonly),
     ("serverctrls", sctrls), ("clientctrls", cctrls),
     ("timeout", tmo), ("sizelimit", szl)]
  | .result3 msgid allArg tmo =>
    [("msgid", .int msgid), ("all", allArg), ("timeout", tmo)]
  | .searchS base scope filterstr attrlist attrsonly =>
    [("base", .str base), ("scope", .int scope), ("filterstr", .str filterstr),
     ("attrlist", attrlist), ("attrsonly", .int attrsonly)]
  | .startTlsS => []
  | .compareS dn attr value => [("dn", .str dn), ("attr", .str attr), ("value", value)]
  | .modifyS dn modAttrs => [("dn", .str dn), ("mod_attrs", modAttrsToPyList modAttrs)]
  | .deleteS dn => [("dn", .str dn)]
  | .addS dn record => [("dn", .str dn), ("record", recordToPyList record)]
  | .renameS dn newrdn superior =>
    [("dn", .str dn), ("newrdn", .str newrdn), ("superior", superiorToPy superior)]
  | .unbindS => []

/-- Append the `_record_call` entry for an operation. -/
def recCall (op : Op) (st : MState) : MState :=
  { st with calls := st.calls ++ [(opName op, opRecordArgs op)] }

/-- The shared wrapper pattern `value = self._get_return_value(...); if value
is None: value = fallback`: a preset hit returns (or raises) the stored
value, a miss - or a stored Python `None` - runs the built-in emulation. -/
def resolveOr (st : MState) (api : String) (args : PyVal)
    (fb : MState → Except PyErr PyVal × MState) : Except PyErr PyVal × MState :=
  match mockGetReturnValue st.returnValueMaps api args with
  | .error e => (.error e, st)
  | .ok (some v) => if v = .pnone then fb st else (.ok v, st)
  | .ok none => fb st

/-- One public API call against the instance state: record the call (except
for `start_tls_s`, which records nothing), consult the preset table where
the wrapper does, then run the built-in emulation.  The result is the
returned value or the raised exception, together with the state after the
call. -/
def step (op : Op) (st : MState) : Except PyErr PyVal × MState :=
  match op with
  | .setOption o i =>
    let st1 := recCall op st
    (.ok .pnone, { st1 with options := pyAssocSet st1.options o i })
  | .initializeOp uri tl tf tsl =>
    let st1 := recCall op st
    resolveOr st1 "initialize" (.tup (PyList.ofList [uri, tl, tf, tsl]))
      (fun s => (.ok (.obj "self"), s))
  | .simpleBindS who cred =>
    let st1 := recCall op st
    resolveOr st1 "simple_bind_s" (.tup (PyList.ofList [.str who, .str cred]))
      (fun s =>
        let r := mockSimpleBindS s.isDefault s.directory who cred
        (r.1, { s with directory := r.2 }))
  | .searchExt base scope filterstr attrlist attrsonly sctrls _ _ _ =>
    let st1 := recCall op st
    let msgid := st1.cookie
    match sctrls with
    | .list (.cons (.ctrl _) rest) =>
      let ctrls2 : PyVal := .list (.cons (.ctrl (some (toString msgid))) rest)
      let st2 := { st1 with asyncResults := st1.asyncResults ++ [(msgid, ctrls2, none)] }
      match mockGetReturnValue st2.returnValueMaps "search_ext"
          (.tup (PyList.ofList
            [.str base, .int scope, .str filterstr, attrlist, .int attrsonly])) with
      | .error e => (.error e, st2)
      | .ok r =>
        match (match r with
               | some v =>
                 if v = PyVal.pnone then mockSearchS st2.directory base scope filterstr
                 else Except.ok v
               | none => mockSearchS st2.directory base scope filterstr : Except PyErr PyVal) with
        | .error e => (.error e, st2)
        | .ok v =>
          (.ok (.int msgid),
           { st2 with asyncResults := asyncSetData st2.asyncResults msgid v,
                      cookie := st2.cookie + 1 })
    | .list .nil => (.error .indexError, st1)
    | .pnone => (.error .typeError, st1)
    | .list (.cons _ _) => (.error .attributeError, st1)
    | _ => (.error .typeError, st1)
  | .result3 msgid _ _ =>
    let st1 := recCall op st
    if st1.asyncResults ≠ [] ∧ msgid = ldapResAny then (.error .typeError, st1)
    else
      match asyncGet st1.asyncResults msgid with
      | some entry =>
        match entry.2 with
        | none => (.error .keyError, st1)
        | some data =>
          let st2 := { st1 with asyncResults := asyncDel st1.asyncResults msgid }
          match entry.1 with
          | .list (.cons (.ctrl _) rest) =>
            (.ok (.tup (PyList.ofList
              [.int ldapResSearchResult, data, .int msgid,
               .list (.cons (.ctrl none) rest)])), st2)
          | .list .nil => (.error .indexError, st2)
          | _ => (.error .attributeError, st2)
      | none => (.error .unboundLocalError, st1)
  | .searchS base scope filterstr attrlist attrsonly =>
    let st1 := recCall op st
    resolveOr st1 "search_s"
      (.tup (PyList.ofList
        [.str base, .int scope, .str filterstr, attrlist, .int attrsonly]))
      (fun s => (mockSearchS s.directory base scope filterstr, s))
  | .startTlsS => (.ok .pnone, { st with tlsEnabled := true })
  | .compareS dn attr value =>
    let st1 := recCall op st
    resolveOr st1 "compare_s" (.tup (PyList.ofList [.str dn, .str attr, value]))
      (fun s =>
        let r := mockCompareS s.isDefault s.directory dn attr value
        (r.1.map (fun n => PyVal.int (n : Int)), { s with directory := r.2 }))
  | .modifyS dn modAttrs =>
    let st1 := recCall op st
    resolveOr st1 "modify_s" (.tup (PyList.ofList [.str dn, modAttrsToPyTup modAttrs]))
      (fun s =>
        let r := mockModifyS s.isDefault s.directory dn modAttrs
        (r.1, { s with directory := r.2 }))
  | .deleteS dn =>
    let st1 := recCall op st
    resolveOr st1 "delete_s" (.str dn)
      (fun s =>
        let r := mockDeleteS s.directory dn
        (r.1, { s with directory := r.2 }))
  | .addS dn record =>
    let st1 := recCall op st
    let mangled := mockMangleRecord record
    resolveOr st1 "add_s" (.tup (PyList.ofList [.str dn, recordToPyTup mangled]))
      (fun s =>
        let r := mockAddS s.isDefault s.directory dn mangled s.calls.length
        (r.1, { s with directory := r.2 }))
  | .renameS dn newrdn superior =>
    let st1 := recCall op st
    resolveOr st1 "rename_s"
      (.tup (PyList.ofList [.str dn, .str newrdn, superiorToPy superior]))
      (fun s =>
        let r := mockRenameS s.isDefault s.directory dn newrdn superior
        (r.1, { s with directory := r.2 }))
  | .unbindS =>
    let st1 := recCall op st
    (.ok .pnone, st1)

/-- Run a sequence of public API calls, discarding per-call results. -/
def runOps : List Op → MState → MState
  | [], st => st
  | op :: rest, st => runOps rest (step op st).2

/-- The preset-signature arguments of the operations whose wrapper both
consults `_get_return_value` and returns its hit directly: `initialize`,
`simple_bind_s`, `search_s`, `compare_s`, `modify_s`, `delete_s`, `add_s`
and `rename_s`.  (`set_option`, `start_tls_s` and `unbind_s` never consult
the table, and `search_ext` delivers a hit through `result3` instead of
returning it.) -/
def opPresetKeyArgs : Op → Option PyVal
  | .initializeOp uri tl tf tsl => some (.tup (PyList.ofList [uri, tl, tf, tsl]))
  | .simpleBindS who cred => some (.tup (PyList.ofList [.str who, .str cred]))
  | .searchS base scope filterstr attrlist attrsonly =>
    some (.tup (PyList.ofList
      [.str base, .int scope, .str filterstr, attrlist, .int attrsonly]))
  | .compareS dn attr value => some (.tup (PyList.ofList [.str dn, .str attr, value]))
  | .modifyS dn modAttrs => some (.tup (PyList.ofList [.str dn, modAttrsToPyTup modAttrs]))
  | .deleteS dn => some (.str dn)
  | .addS dn record =>
    some (.tup (PyList.ofList [.str dn, recordToPyTup (mockMangleRecord record)]))
  | .renameS dn newrdn superior =>
    some (.tup (PyList.ofList [.str dn, .str newrdn, superiorToPy superior]))
  | _ => none

/-- Container shapes on which Python `cred in container` is defined (does not
raise `TypeError`) when `cred` is a string: strings, lists, tuples and
dicts. -/
def pyInDefined : PyVal → Bool
  | .str _ => true
  | .list _ => true
  | .tup _ => true
  | .dict _ => true
  | _ => false

/-!
Supporting lemmas.
-/

theorem dirGet_append_absent (d : Dir) (dn : String) (e : Entry)
    (h : dirGet d dn = none) : dirGet (d ++ [(dn, e)]) dn = some e := by
  induction d with
  | nil => simp [dirGet]
  | cons de rest ih =>
    by_cases hd : de.1 = dn
    · simp [dirGet, hd] at h
    · simp only [List.cons_append, dirGet, hd, if_false] at h ⊢
      exact ih h

theorem dirGetItem_false (d : Dir) (dn : String) :
    dirGetItem false d dn = (dirGet d dn, d) := by
  unfold dirGetItem
  cases dirGet d dn <;> simp

theorem mockCompareS_false_snd (d : Dir) (dn attr : String) (v : PyVal) :
    (mockCompareS false d dn attr v).2 = d := by
  unfold mockCompareS
  rw [dirGetItem_false]
  cases hg : dirGet d dn with
  | none => rfl
  | some entry =>
    simp only []
    cases he : entryGet entry attr with
    | none => rfl
    | some c =>
      simp only [he]
      cases hp : pyIn v c with
      | error e => rfl
      | ok b => rfl

theorem mockSimpleBindS_false_snd (d : Dir) (who cred : String) :
    (mockSimpleBindS false d who cred).2 = d := by
  unfold mockSimpleBindS
  by_cases h : who = "" ∧ cred = ""
  · simp [h]
  · simp only [h, if_false]
    rcases h2 : mockCompareS false d (String.mk (lowerL who.data)) "userPassword"
        (.str cred) with ⟨r, d1⟩
    have hd1 : d1 = d := by
      have := mockCompareS_false_snd d (String.mk (lowerL who.data)) "userPassword"
        (.str cred)
      rw [h2] at this
      exact this
    cases r with
    | error e => simpa using hd1
    | ok n =>
      by_cases hn : n ≠ 0 <;> simp [hn] <;> exact hd1

theorem mockDeleteS_error (d : Dir) (dn : String) (e : PyErr)
    (h : (mockDeleteS d dn).1 = .error e) : (mockDeleteS d dn).2 = d := by
  unfold mockDeleteS at h ⊢
  cases hg : dirGet d dn <;> simp [hg] at h ⊢

theorem mockAddS_false_error (d : Dir) (dn : String) (r : List (String × PyVal))
    (n : Nat) (e : PyErr) (h : (mockAddS false d dn r n).1 = .error e) :
    (mockAddS false d dn r n).2 = d := by
  unfold mockAddS at h ⊢
  rw [dirGetItem_false] at h ⊢
  cases hg : dirGet d dn <;> simp [hg] at h ⊢

theorem mockRenameS_false_error (d : Dir) (dn newrdn : String)
    (sup : Option String) (e : PyErr)
    (h : (mockRenameS false d dn newrdn sup).1 = .error e) :
    (mockRenameS false d dn newrdn sup).2 = d := by
  unfold mockRenameS at h ⊢
  rw [dirGetItem_false] at h ⊢
  cases hg : dirGet d dn with
  | none => simp [hg] at h ⊢
  | some entry =>
    simp only [hg] at h ⊢
    split at h
    · simp at h
    · rfl

theorem resolveOr_calls (st : MState) (api : String) (args : PyVal)
    (fb : MState → Except PyErr PyVal × MState)
    (hfb : ∀ s, ((fb s).2).calls = s.calls) :
    ((resolveOr st api args fb).2).calls = st.calls := by
  unfold resolveOr
  cases mockGetReturnValue st.returnValueMaps api args with
  | error e => rfl
  | ok o =>
    cases o with
    | none => exact hfb st
    | some v =>
      by_cases hv : v = PyVal.pnone
      · simp only [hv, if_true]
        exact hfb st
      · simp [hv]

theorem resolveOr_error_directory (st : MState) (api : String) (args : PyVal)
    (fb : MState → Except PyErr PyVal × MState) (e : PyErr)
    (hfb : ∀ e2, (fb st).1 = .error e2 → ((fb st).2).directory = st.directory)
    (h : (resolveOr st api args fb).1 = .error e) :
    ((resolveOr st api args fb).2).directory = st.directory := by
  unfold resolveOr at h ⊢
  cases hg : mockGetReturnValue st.returnValueMaps api args with
  | error e2 => rfl
  | ok o =>
    rw [hg] at h
    cases o with
    | none => exact hfb e h
    | some v =>
      by_cases hv : v = PyVal.pnone
      · simp only [hv, if_true] at h ⊢
        exact hfb e h
      · simp [hv] at h

theorem step_calls (op : Op) (st : MState) :
    ((step op st).2).calls =
      if op = Op.startTlsS then st.calls
      else st.calls ++ [(opName op, opRecordArgs op)] := by
  cases op with
  | startTlsS => rfl
  | setOption o i => rw [if_neg (by simp)]; rfl
  | unbindS => rw [if_neg (by simp)]; rfl
  | initializeOp a b c d =>
    rw [if_neg (by simp)]
    exact resolveOr_calls _ _ _ _ (fun s => rfl)
  | simpleBindS who cred =>
    rw [if_neg (by simp)]
    exact resolveOr_calls _ _ _ _ (fun s => rfl)
  | searchS base scope filterstr attrlist attrsonly =>
    rw [if_neg (by simp)]
    exact resolveOr_calls _ _ _ _ (fun s => rfl)
  | compareS dn attr value =>
    rw [if_neg (by simp)]
    exact resolveOr_calls _ _ _ _ (fun s => rfl)
  | modifyS dn modAttrs =>
    rw [if_neg (by simp)]
    exact resolveOr_calls _ _ _ _ (fun s => rfl)
  | deleteS dn =>
    rw [if_neg (by simp)]
    exact resolveOr_calls _ _ _ _ (fun s => rfl)
  | addS dn record =>
    rw [if_neg (by simp)]
    exact resolveOr_calls _ _ _ _ (fun s => rfl)
  | renameS dn newrdn superior =>
    rw [if_neg (by simp)]
    exact resolveOr_calls _ _ _ _ (fun s => rfl)
  | searchExt base scope filterstr attrlist attrsonly sctrls cctrls tmo szl =>
    rw [if_neg (by simp)]
    simp only [step]
    split
    · split
      · rfl
      · split <;> rfl
    · rfl
    · rfl
    · rfl
    · rfl
  | result3 msgid allArg tmo =>
    rw [if_neg (by simp)]
    simp only [step]
    split
    · rfl
    · split
      · split
        · rfl
        · split <;> rfl
      · rfl

theorem step_searchExt_directory (st : MState) (base : String) (scope : Int)
    (filterstr : String) (attrlist : PyVal) (attrsonly : Int)
    (sctrls cctrls tmo szl : PyVal) :
    ((step (Op.searchExt base scope filterstr attrlist attrsonly sctrls cctrls
      tmo szl) st).2).directory = st.directory := by
  simp only [step]
  split
  · split
    · rfl
    · split <;> rfl
  · rfl
  · rfl
  · rfl
  · rfl

theorem step_result3_directory (st : MState) (msgid : Int) (allArg tmo : PyVal) :
    ((step (Op.result3 msgid allArg tmo) st).2).directory = st.directory := by
  simp only [step]
  split
  · rfl
  · split
    · split
      · rfl
      · split <;> rfl
    · rfl

/-- C1: on a `MockLDAP()` built without a seed directory the store is a
`defaultdict`, so the probe `self.directory[dn]` inside `_add_s` never
raises `KeyError`: `add_s` of an ABSENT dn still raises
`ldap.ALREADY_EXISTS`, and as a side effect inserts an empty entry under
that dn, instead of storing the record as the claim (and the `try/except
KeyError` structure of the source itself) intends. -/
theorem C1_add_s_on_default_store_raises_for_absent_dn :
    dirGet (initState none).directory "dc=x" = none ∧
    (step (Op.addS "dc=x" [("a", PyVal.str "b")]) (initState none)).1 =
      .error .alreadyExists ∧
    ((step (Op.addS "dc=x" [("a", PyVal.str "b")]) (initState none)).2).directory =
      [("dc=x", [])] :=
  ⟨rfl, rfl, rfl⟩

/-- C2: a `modify_s` add-value item executes `key.append(value)` - `key` is
the attribute NAME, a string - so instead of appending the value to the
attribute's sequence the call always raises `AttributeError` (Python
strings have no `append`); the store keeps its old value.  The repository's
own test `test_modify_s_operation` expects the `description` attribute to
be created with the given value instead. -/
theorem C2_modify_s_mod_add_raises_attribute_error :
    (step (Op.modifyS "cn=users,ou=groups,dc=30loops,dc=net"
        [(0, "description", PyVal.str "Group of all users")])
      (initState (some [("cn=users,ou=groups,dc=30loops,dc=net",
        [("cn", PyVal.tup (PyList.ofList [.str "users"]))])]))).1 =
      .error .attributeError ∧
    ((step (Op.modifyS "cn=users,ou=groups,dc=30loops,dc=net"
        [(0, "description", PyVal.str "Group of all users")])
      (initState (some [("cn=users,ou=groups,dc=30loops,dc=net",
        [("cn", PyVal.tup (PyList.ofList [.str "users"]))])]))).2).directory =
      [("cn=users,ou=groups,dc=30loops,dc=net",
        [("cn", PyVal.tup (PyList.ofList [.str "users"]))])] :=
  ⟨rfl, rfl⟩

/-- C7: a `modify_s` delete-value item with a NON-null value and an
attribute stored as a tuple (the very shape the repository's own test
`test_modify_s_operation` seeds for `memberUid`) falls into the
`del entry[key]` branch - `isinstance(row, list)` is false for tuples and
plain strings - and removes the whole attribute instead of removing only
the matching values; and with a null value on a LIST-shaped attribute the
scan compares `None` against the elements and removes nothing, so the
attribute is NOT removed entirely. -/
theorem C7_mod_delete_wrong_on_scalar_and_null :
    ((step (Op.modifyS "cn=users,dc=x" [(1, "memberUid", PyVal.str "jack")])
      (initState (some [("cn=users,dc=x",
        [("memberUid", PyVal.tup (PyList.ofList [.str "john", .str "jack"]))])]))).1 =
      .ok marker103 ∧
     ((step (Op.modifyS "cn=users,dc=x" [(1, "memberUid", PyVal.str "jack")])
      (initState (some [("cn=users,dc=x",
        [("memberUid", PyVal.tup (PyList.ofList [.str "john", .str "jack"]))])]))).2).directory =
      [("cn=users,dc=x", [])]) ∧
    ((step (Op.modifyS "dc=x" [(1, "a", PyVal.pnone)])
      (initState (some [("dc=x", [("a", PyVal.list (PyList.ofList [.str "x"]))])]))).1 =
      .ok marker103 ∧
     ((step (Op.modifyS "dc=x" [(1, "a", PyVal.pnone)])
      (initState (some [("dc=x", [("a", PyVal.list (PyList.ofList [.str "x"]))])]))).2).directory =
      [("dc=x", [("a", PyVal.list (PyList.ofList [.str "x"]))])]) :=
  ⟨⟨rfl, rfl⟩, ⟨rfl, rfl⟩⟩

/-- C3 counterexample: `modify_s` applies modification items one by one to
the entry object aliased into the store, so a replace item followed by a
delete item naming an absent attribute first mutates the store and then
raises (an uncaught `KeyError`): the failing call leaves the store CHANGED,
refuting the claim that every failing operation leaves the store
untouched. -/
theorem C3_modify_s_mutates_then_raises :
    (step (Op.modifyS "dc=x" [(2, "a", PyVal.str "2"), (1, "b", PyVal.pnone)])
      (initState (some [("dc=x", [("a", PyVal.str "1")])]))).1 =
      .error .keyError ∧
    ((step (Op.modifyS "dc=x" [(2, "a", PyVal.str "2"), (1, "b", PyVal.pnone)])
      (initState (some [("dc=x", [("a", PyVal.str "1")])]))).2).directory =
      [("dc=x", [("a", PyVal.str "2")])] ∧
    [("dc=x", [("a", PyVal.str "2")])] ≠
      (initState (some [("dc=x", [("a", PyVal.str "1")])])).directory :=
  ⟨rfl, rfl, by decide⟩

/-- C3 (amended): on a SEEDED store (a plain dict, so that a bare lookup of
an absent dn cannot insert an entry) every public operation other than
`modify_s` that raises leaves the directory store unchanged; `modify_s` is
excluded because it can apply part of its modification list before a later
item raises, and default (`defaultdict`) stores are excluded because the
probing lookups of `add_s`, `simple_bind_s` and `compare_s` insert an empty
entry before the operation fails. -/
theorem C3_non_modify_failures_leave_seeded_store_unchanged :
    ∀ (op : Op) (st : MState) (e : PyErr),
      st.isDefault = false →
      (∀ dn ma, op ≠ Op.modifyS dn ma) →
      (step op st).1 = .error e →
      ((step op st).2).directory = st.directory := by
  intro op st e hdef hmod herr
  rcases st with ⟨dir, isDef, ck, ar, cl, rvm, opts, tls⟩
  simp only [] at hdef
  subst hdef
  cases op with
  | modifyS dn ma => exact absurd rfl (hmod dn ma)
  | startTlsS => rfl
  | setOption o i => rfl
  | unbindS => rfl
  | searchExt base scope filterstr attrlist attrsonly sctrls cctrls tmo szl =>
    exact step_searchExt_directory _ _ _ _ _ _ _ _ _ _
  | result3 msgid allArg tmo => exact step_result3_directory _ _ _ _
  | initializeOp a b c d =>
    exact resolveOr_error_directory _ _ _ _ e (fun e2 h2 => nomatch h2) herr
  | searchS base scope filterstr attrlist attrsonly =>
    exact resolveOr_error_directory _ _ _ _ e (fun e2 h2 => rfl) herr
  | simpleBindS who cred =>
    exact resolveOr_error_directory _ _ _ _ e
      (fun e2 h2 => mockSimpleBindS_false_snd _ who cred) herr
  | compareS dn attr value =>
    exact resolveOr_error_directory _ _ _ _ e
      (fun e2 h2 => mockCompareS_false_snd _ dn attr value) herr
  | deleteS dn =>
    exact resolveOr_error_directory _ _ _ _ e
      (fun e2 h2 => mockDeleteS_error _ dn e2 h2) herr
  | addS dn record =>
    exact resolveOr_error_directory _ _ _ _ e
      (fun e2 h2 => mockAddS_false_error _ dn _ _ e2 h2) herr
  | renameS dn newrdn superior =>
    exact resolveOr_error_directory _ _ _ _ e
      (fun e2 h2 => mockRenameS_false_error _ dn newrdn superior e2 h2) herr

theorem C3_non_modify_failures_witness :
    ((step (Op.deleteS "cn=a,dc=x")
      (initState (some [("cn=b,dc=x", [])]))).2).directory =
      (initState (some [("cn=b,dc=x", [])])).directory :=
  C3_non_modify_failures_leave_seeded_store_unchanged
    (Op.deleteS "cn=a,dc=x") (initState (some [("cn=b,dc=x", [])]))
    PyErr.noSuchObject rfl (fun dn ma h => by cases h) rfl

/-- C5 counterexample: `start_tls_s` is a public operation but its body
only sets `tls_enabled`; it never calls `_record_call`, so after one public
operation the ledger is still empty, refuting the claim that every public
operation (the TLS-start operation included) appends a ledger record. -/
theorem C5_start_tls_s_records_nothing :
    (runOps [Op.startTlsS] (initState none)).calls = [] ∧
    (runOps [Op.startTlsS] (initState none)).calls.length ≠ [Op.startTlsS].length :=
  ⟨rfl, by decide⟩

/-- C5 (amended): every public operation EXCEPT `start_tls_s` appends
exactly one `(name, arguments)` record - defaulted arguments included - to
the call ledger before any other processing, and `start_tls_s` appends
nothing; hence the ledger length after a run equals the number of public
operations invoked other than `start_tls_s`, in invocation order. -/
theorem C5_ledger_records_all_but_start_tls :
    (∀ (op : Op) (st : MState),
      ((step op st).2).calls =
        if op = Op.startTlsS then st.calls
        else st.calls ++ [(opName op, opRecordArgs op)]) ∧
    (∀ (ops : List Op) (st : MState),
      (runOps ops st).calls.length =
        st.calls.length + (ops.filter (fun o => o ≠ Op.startTlsS)).length) := by
  refine ⟨step_calls, ?_⟩
  intro ops
  induction ops with
  | nil => intro st; simp [runOps]
  | cons op rest ih =>
    intro st
    simp only [runOps]
    rw [ih, step_calls]
    by_cases hop : op = Op.startTlsS
    · simp [hop]
    · simp only [hop, if_false, List.filter_cons]
      simp [hop]
      omega

theorem mockCompareS_default_absent (d : Dir) (dn attr : String) (v : PyVal)
    (h : dirGet d dn = none) :
    mockCompareS true d dn attr v = (.ok 0, d ++ [(dn, [])]) := by
  unfold mockCompareS dirGetItem
  rw [h]
  rfl

/-- C9: a one-level `search_s` whose filter does not match the anchored
simple-query regex `\(\w+=.+\)$` - every compound `&` or `|` filter starts
with a non-word character after the parenthesis, so none of them match -
raises `PresetReturnRequiredError` whenever the preset table holds no
response for the call. -/
theorem C9_onelevel_non_simple_filter_requires_preset :
    ∀ (st : MState) (base filterstr : String) (attrlist : PyVal) (attrsonly : Int),
      regexMatchSimpleQuery filterstr = false →
      mockGetReturnValue st.returnValueMaps "search_s"
        (.tup (PyList.ofList
          [.str base, .int 1, .str filterstr, attrlist, .int attrsonly])) =
        .ok none →
      (step (Op.searchS base 1 filterstr attrlist attrsonly) st).1 =
        .error .presetReturnRequired := by
  intro st base filterstr attrlist attrsonly hre hrv
  show (resolveOr (recCall (Op.searchS base 1 filterstr attrlist attrsonly) st)
    "search_s" _ _).1 = _
  unfold resolveOr
  rw [show (recCall (Op.searchS base 1 filterstr attrlist attrsonly) st).returnValueMaps
        = st.returnValueMaps from rfl, hrv]
  show mockSearchS st.directory base 1 filterstr = _
  unfold mockSearchS
  rw [if_neg (by decide), if_pos rfl, hre]
  rfl

theorem C9_onelevel_non_simple_filter_witness :
    (step (Op.searchS "ou=users,dc=30loops,dc=net" 1
      "(&(mail=john@example.com)(userPassword=ldaptest))" .pnone 0)
      (initState (some [("cn=john,ou=users,dc=30loops,dc=net",
        [("mail", PyVal.str "john@example.com")])]))).1 =
      .error .presetReturnRequired :=
  C9_onelevel_non_simple_filter_requires_preset
    (initState (some [("cn=john,ou=users,dc=30loops,dc=net",
      [("mail", PyVal.str "john@example.com")])]))
    "ou=users,dc=30loops,dc=net"
    "(&(mail=john@example.com)(userPassword=ldaptest))" .pnone 0 rfl rfl

/-- C10: on an instance built without an initial directory, `compare_s` of
an absent dn returns `0` but its probe `self.directory[dn]` inserts an
empty attribute dict under that dn (the store is a `defaultdict`), so a
subsequent base-scope `search_s` with the universal filter finds the dn and
returns `[(dn, ...)]` with an empty dict instead of raising
`NO_SUCH_OBJECT`. -/
theorem C10_compare_s_on_default_store_inserts_empty_entry :
    ∀ (st : MState) (dn attr : String) (value : PyVal),
      st.isDefault = true →
      dirGet st.directory dn = none →
      mockGetReturnValue st.returnValueMaps "compare_s"
        (.tup (PyList.ofList [.str dn, .str attr, value])) = .ok none →
      mockGetReturnValue st.returnValueMaps "search_s"
        (.tup (PyList.ofList
          [.str dn, .int 0, .str "(objectClass=*)", .pnone, .int 0])) = .ok none →
      (step (Op.compareS dn attr value) st).1 = .ok (.int 0) ∧
      dirGet ((step (Op.compareS dn attr value) st).2).directory dn = some [] ∧
      (step (Op.searchS dn 0 "(objectClass=*)" .pnone 0)
        ((step (Op.compareS dn attr value) st).2)).1 =
        .ok (resultsToPy [(dn, [])]) := by
  intro st dn attr value hdef habs hrv1 hrv2
  rcases st with ⟨dir, isDef, ck, ar, cl, rvm, opts, tls⟩
  simp only [] at hdef habs hrv1 hrv2
  subst hdef
  have hstep : step (Op.compareS dn attr value) ⟨dir, true, ck, ar, cl, rvm, opts, tls⟩ =
      (.ok (.int 0),
       { recCall (Op.compareS dn attr value) ⟨dir, true, ck, ar, cl, rvm, opts, tls⟩
          with directory := dir ++ [(dn, [])] }) := by
    simp only [step]
    unfold resolveOr
    rw [show (recCall (Op.compareS dn attr value)
          ⟨dir, true, ck, ar, cl, rvm, opts, tls⟩).returnValueMaps = rvm from rfl, hrv1]
    dsimp only [recCall]
    rw [mockCompareS_default_absent dir dn attr value habs]
    rfl
  refine ⟨by rw [hstep], by rw [hstep]; exact dirGet_append_absent dir dn [] habs, ?_⟩
  rw [hstep]
  simp only [step]
  unfold resolveOr
  rw [show (recCall (Op.searchS dn 0 "(objectClass=*)" PyVal.pnone 0)
        { recCall (Op.compareS dn attr value)
            ⟨dir, true, ck, ar, cl, rvm, opts, tls⟩
          with directory := dir ++ [(dn, [])] }).returnValueMaps = rvm from rfl, hrv2]
  dsimp only [recCall]
  unfold mockSearchS
  rw [if_pos rfl, if_neg (by simp), dirGet_append_absent dir dn [] habs]

theorem C10_compare_s_inserts_empty_entry_witness :
    (step (Op.searchS "cn=ghost,dc=x" 0 "(objectClass=*)" .pnone 0)
      ((step (Op.compareS "cn=ghost,dc=x" "uid" (PyVal.str "x"))
        (initState none)).2)).1 =
      .ok (resultsToPy [("cn=ghost,dc=x", [])]) :=
  (C10_compare_s_on_default_store_inserts_empty_entry (initState none)
    "cn=ghost,dc=x" "uid" (PyVal.str "x") rfl rfl rfl rfl).2.2

theorem resolveOr_preset_val (st : MState) (api : String) (args k v : PyVal)
    (fb : MState → Except PyErr PyVal × MState)
    (hjs : jsonNorm args = some k)
    (hget : rvmGet st.returnValueMaps api k = some (.val v))
    (hv : v ≠ PyVal.pnone) :
    resolveOr st api args fb = (.ok v, st) := by
  unfold resolveOr mockGetReturnValue
  rw [hjs]
  dsimp only
  rw [hget]
  simp [hv]

theorem resolveOr_preset_exc (st : MState) (api : String) (args k : PyVal)
    (e : PyErr) (fb : MState → Except PyErr PyVal × MState)
    (hjs : jsonNorm args = some k)
    (hget : rvmGet st.returnValueMaps api k = some (.exc e)) :
    resolveOr st api args fb = (.error e, st) := by
  unfold resolveOr mockGetReturnValue
  rw [hjs]
  dsimp only
  rw [hget]

/-- C8 counterexample: a preset whose stored value is Python `None` is NOT
returned: `_get_return_value` hands back `None`, which every wrapper takes
to mean "no preset", so the call falls through to the built-in emulation
and can mutate the directory store - here a registered
`delete_s` preset with value `None` is silently ignored, the entry is
deleted and `(107, [])` is returned instead of the preset value. -/
theorem C8_none_preset_falls_through_to_emulation :
    mockSetReturnValue [] "delete_s" (.str "dc=x") (.val .pnone) =
      .ok [("delete_s", [(.str "dc=x", RetVal.val .pnone)])] ∧
    (step (Op.deleteS "dc=x")
      { initState (some [("dc=x", [("a", PyVal.str "1")])]) with
        returnValueMaps := [("delete_s", [(.str "dc=x", RetVal.val .pnone)])] }).1 =
      .ok marker107 ∧
    marker107 ≠ PyVal.pnone ∧
    ((step (Op.deleteS "dc=x")
      { initState (some [("dc=x", [("a", PyVal.str "1")])]) with
        returnValueMaps := [("delete_s", [(.str "dc=x", RetVal.val .pnone)])] }).2).directory =
      [] ∧
    ([] : Dir) ≠ (initState (some [("dc=x", [("a", PyVal.str "1")])])).directory :=
  ⟨rfl, rfl, by decide, rfl, by decide⟩

/-- C8 (amended): `set_return_value` and `_get_return_value` key the preset
table by the same `json.dumps` normal form, under which Python lists and
tuples are interchangeable; for each of the operations that return the
resolved value directly (`initialize`, `simple_bind_s`, `search_s`,
`compare_s`, `modify_s`, `delete_s`, `add_s`, `rename_s`), a registered
preset that is not `None` is returned - or raised, when it is an
Exception - and the directory store is left unchanged.  (`None` presets
fall through to the emulation; `search_ext` delivers its preset via
`result3`; `set_option`, `start_tls_s` and `unbind_s` ignore the table.) -/
theorem C8_non_none_presets_resolve_before_emulation :
    (∀ (m : RVMap) (api : String) (regArgs k : PyVal) (rv : RetVal),
      jsonNorm regArgs = some k →
      mockSetReturnValue m api regArgs rv = .ok (rvmSet m api k rv)) ∧
    (∀ (op : Op) (st : MState) (args k : PyVal),
      opPresetKeyArgs op = some args →
      jsonNorm args = some k →
      (∀ (v : PyVal),
        rvmGet st.returnValueMaps (opName op) k = some (.val v) →
        v ≠ PyVal.pnone →
        (step op st).1 = .ok v ∧ ((step op st).2).directory = st.directory) ∧
      (∀ (e : PyErr),
        rvmGet st.returnValueMaps (opName op) k = some (.exc e) →
        (step op st).1 = .error e ∧ ((step op st).2).directory = st.directory)) := by
  constructor
  · intro m api regArgs k rv hjs
    unfold mockSetReturnValue
    rw [hjs]
  · intro op st args k hargs hk
    cases op <;> simp only [opPresetKeyArgs, Option.some.injEq] at hargs
    any_goals exact Option.noConfusion hargs
    all_goals
      (subst hargs
       refine ⟨fun v hget hv => ⟨?_, ?_⟩, fun e hget => ⟨?_, ?_⟩⟩ <;>
         simp only [step] <;>
         first
           | exact congrArg Prod.fst
               (resolveOr_preset_val (recCall _ st) _ _ k v _ hk hget hv)
           | exact congrArg (fun p => (p.2).directory)
               (resolveOr_preset_val (recCall _ st) _ _ k v _ hk hget hv)
           | exact congrArg Prod.fst
               (resolveOr_preset_exc (recCall _ st) _ _ k e _ hk hget)
           | exact congrArg (fun p => (p.2).directory)
               (resolveOr_preset_exc (recCall _ st) _ _ k e _ hk hget))

theorem C8_non_none_presets_witness :
    (step (Op.searchS "ou=users,dc=x" 2 "(cn=a)" .pnone 0)
      { initState (some [("cn=b,dc=x", [("cn", PyVal.str "b")])]) with
        returnValueMaps := [("search_s",
          [(.list (PyList.ofList
              [.str "ou=users,dc=x", .int 2, .str "(cn=a)", .pnone, .int 0]),
            RetVal.val (PyVal.str "canned"))])] }).1 = .ok (PyVal.str "canned") :=
  (((C8_non_none_presets_resolve_before_emulation).2
    (Op.searchS "ou=users,dc=x" 2 "(cn=a)" .pnone 0)
    { initState (some [("cn=b,dc=x", [("cn", PyVal.str "b")])]) with
      returnValueMaps := [("search_s",
        [(.list (PyList.ofList
            [.str "ou=users,dc=x", .int 2, .str "(cn=a)", .pnone, .int 0]),
          RetVal.val (PyVal.str "canned"))])] }
    _ _ rfl rfl).1 (PyVal.str "canned") rfl (by decide)).1

theorem mockCompareS_first (isDef : Bool) (d : Dir) (dn attr : String)
    (value : PyVal) :
    (mockCompareS isDef d dn attr value).1 =
      match dirGet d dn with
      | none => .ok 0
      | some e =>
        match entryGet e attr with
        | none => .ok 0
        | some c =>
          match pyIn value c with
          | .error er => .error er
          | .ok b => .ok (if b then 1 else 0) := by
  unfold mockCompareS dirGetItem
  cases hg : dirGet d dn with
  | none => cases isDef <;> rfl
  | some e =>
    cases he : entryGet e attr with
    | none => simp [he]
    | some c =>
      cases hp : pyIn value c with
      | error er => simp [he, hp]
      | ok b => simp [he, hp]

theorem mockSimpleBindS_first (isDef : Bool) (d : Dir) (who cred : String) :
    (mockSimpleBindS isDef d who cred).1 =
      if who = "" ∧ cred = "" then .ok marker97
      else
        match (mockCompareS isDef d (String.mk (lowerL who.data)) "userPassword"
          (.str cred)).1 with
        | .error e => .error e
        | .ok n => if n ≠ 0 then .ok marker97 else .error .invalidCredentials := by
  unfold mockSimpleBindS
  by_cases h : who = "" ∧ cred = ""
  · simp [h]
  · rw [if_neg h, if_neg h]
    rcases hcm : mockCompareS isDef d (String.mk (lowerL who.data)) "userPassword"
      (.str cred) with ⟨r, d1⟩
    cases r with
    | error e => simp
    | ok n => by_cases hn : n = 0 <;> simp [hn]

theorem pyIn_str_defined (cred : String) (v : PyVal) (h : pyInDefined v = true) :
    ∃ b, pyIn (.str cred) v = .ok b := by
  cases v with
  | str s => exact ⟨_, rfl⟩
  | list l => exact ⟨_, rfl⟩
  | tup l => exact ⟨_, rfl⟩
  | dict kd => exact ⟨_, rfl⟩
  | int n => exact absurd h (by simp [pyInDefined])
  | pnone => exact absurd h (by simp [pyInDefined])
  | obj t => exact absurd h (by simp [pyInDefined])
  | ctrl c => exact absurd h (by simp [pyInDefined])

/-- C6 counterexample: the bind fallback consults the `userPassword`
attribute, not `password`: for an entry whose `password` attribute does
contain the supplied credential, `simple_bind_s` still raises
`INVALID_CREDENTIALS`, refuting the claim that a credential matching a
value stored under the `password` attribute suffices. -/
theorem C6_bind_ignores_password_attribute :
    pyIn (.str "s") (PyVal.list (PyList.ofList [.str "s"])) = .ok true ∧
    entryGet [("password", PyVal.list (PyList.ofList [.str "s"]))] "password" =
      some (PyVal.list (PyList.ofList [.str "s"])) ∧
    (mockSimpleBindS false
      [("cn=a,dc=x", [("password", PyVal.list (PyList.ofList [.str "s"]))])]
      "cn=a,dc=x" "s").1 = .error .invalidCredentials :=
  ⟨rfl, rfl, rfl⟩

/-- C6 (amended): `_simple_bind_s` returns the fixed marker `(97, [])` for
the anonymous case (both arguments empty), and otherwise exactly when the
entry named by the LOWER-CASED identity has a `userPassword` attribute
whose value contains the credential in the Python `in` sense - element
membership (by `==`) for sequence values, SUBSTRING containment for string
values; in every other case it raises `INVALID_CREDENTIALS`.  The
well-formedness hypothesis rules out stored values (ints, `None`, objects)
on which Python `in` itself raises `TypeError` instead. -/
theorem C6_bind_succeeds_iff_userPassword_contains_cred :
    ∀ (isDef : Bool) (d : Dir) (who cred : String),
      (∀ e v, dirGet d (String.mk (lowerL who.data)) = some e →
        entryGet e "userPassword" = some v → pyInDefined v = true) →
      (((mockSimpleBindS isDef d who cred).1 = .ok marker97) ↔
        ((who = "" ∧ cred = "") ∨
         ∃ e v, dirGet d (String.mk (lowerL who.data)) = some e ∧
           entryGet e "userPassword" = some v ∧ pyIn (.str cred) v = .ok true)) ∧
      (¬((who = "" ∧ cred = "") ∨
         ∃ e v, dirGet d (String.mk (lowerL who.data)) = some e ∧
           entryGet e "userPassword" = some v ∧ pyIn (.str cred) v = .ok true) →
        (mockSimpleBindS isDef d who cred).1 = .error .invalidCredentials) := by
  intro isDef d who cred hwf
  have hb := mockSimpleBindS_first isDef d who cred
  have hc := mockCompareS_first isDef d (String.mk (lowerL who.data)) "userPassword"
    (.str cred)
  by_cases hanon : who = "" ∧ cred = ""
  · rw [if_pos hanon] at hb
    exact ⟨⟨fun _ => Or.inl hanon, fun _ => hb⟩, fun hn => absurd (Or.inl hanon) hn⟩
  · rw [if_neg hanon] at hb
    cases hg : dirGet d (String.mk (lowerL who.data)) with
    | none =>
      rw [hg] at hc
      rw [hc] at hb
      simp at hb
      refine ⟨⟨fun hok => ?_, fun hor => ?_⟩, fun _ => hb⟩
      · rw [hb] at hok
        exact Except.noConfusion hok
      · rcases hor with h1 | ⟨e, v, he, _, _⟩
        · exact absurd h1 hanon
        · exact Option.noConfusion he
    | some entry =>
      rw [hg] at hc
      dsimp only at hc
      cases he : entryGet entry "userPassword" with
      | none =>
        rw [he] at hc
        rw [hc] at hb
        simp at hb
        refine ⟨⟨fun hok => ?_, fun hor => ?_⟩, fun _ => hb⟩
        · rw [hb] at hok
          exact Except.noConfusion hok
        · rcases hor with h1 | ⟨e, v, he2, hv2, _⟩
          · exact absurd h1 hanon
          · injection he2 with he3
            subst he3
            rw [he] at hv2
            exact Option.noConfusion hv2
      | some c =>
        rw [he] at hc
        dsimp only at hc
        obtain ⟨b, hpb⟩ := pyIn_str_defined cred c (hwf entry c hg he)
        rw [hpb] at hc
        rw [hc] at hb
        cases b with
        | true =>
          simp at hb
          exact ⟨⟨fun _ => Or.inr ⟨entry, c, rfl, he, hpb⟩, fun _ => hb⟩,
            fun hn => absurd (Or.inr ⟨entry, c, rfl, he, hpb⟩) hn⟩
        | false =>
          simp at hb
          refine ⟨⟨fun hok => ?_, fun hor => ?_⟩, fun _ => hb⟩
          · rw [hb] at hok
            exact Except.noConfusion hok
          · rcases hor with h1 | ⟨e, v, he2, hv2, hin2⟩
            · exact absurd h1 hanon
            · injection he2 with he3
              subst he3
              rw [he] at hv2
              injection hv2 with hv3
              subst hv3
              rw [hpb] at hin2
              injection hin2 with hb2
              exact Bool.noConfusion hb2

theorem mk_data (s : String) : String.mk s.data = s := rfl

theorem takeWhile_append_not (p : Char → Bool) (xs : List Char) (y : Char)
    (ys : List Char) (hx : ∀ c ∈ xs, p c = true) (hy : p y = false) :
    (xs ++ y :: ys).takeWhile p = xs := by
  induction xs with
  | nil => simp [List.takeWhile_cons, hy]
  | cons a rest ih =>
    have ha : p a = true := hx a (List.mem_cons_self a rest)
    simp only [List.cons_append, List.takeWhile_cons, ha, if_true]
    rw [ih (fun c hc => hx c (List.mem_cons_of_mem a hc))]

theorem splitChar_ne_nil (c : Char) (l : List Char) : splitChar c l ≠ [] := by
  cases l with
  | nil => simp [splitChar]
  | cons a rest =>
    unfold splitChar
    split <;> simp_all
    split <;> simp

theorem splitChar_no_sep (c : Char) (xs : List Char) (h : ∀ a ∈ xs, a ≠ c) :
    splitChar c xs = [xs] := by
  induction xs with
  | nil => rfl
  | cons a rest ih =>
    have ha : a ≠ c := h a (List.mem_cons_self a rest)
    unfold splitChar
    rw [ih (fun b hb => h b (List.mem_cons_of_mem a hb))]
    simp [ha]

theorem splitChar_append (c : Char) (xs ys : List Char)
    (h : ∀ a ∈ xs, a ≠ c) :
    splitChar c (xs ++ c :: ys) = xs :: splitChar c ys := by
  induction xs with
  | nil =>
    obtain ⟨g, gs, hgs⟩ : ∃ g gs, splitChar c ys = g :: gs := by
      cases h2 : splitChar c ys with
      | nil => exact absurd h2 (splitChar_ne_nil c ys)
      | cons g gs => exact ⟨g, gs, rfl⟩
    simp [splitChar, hgs]
  | cons a rest ih =>
    have ha : a ≠ c := h a (List.mem_cons_self a rest)
    have ih2 := ih (fun b hb => h b (List.mem_cons_of_mem a hb))
    simp only [List.cons_append]
    conv_lhs => simp only [splitChar]
    rw [ih2]
    simp [ha]

theorem contains_eq_false_of {l : List Char} {a : Char}
    (h : ∀ c ∈ l, c ≠ a) : l.contains a = false := by
  induction l with
  | nil => rfl
  | cons b rest ih =>
    have hb : b ≠ a := h b (List.mem_cons_self b rest)
    have h1 : (a == b) = false := beq_eq_false_iff_ne.mpr (fun he => hb he.symm)
    rw [List.contains_cons, h1, ih (fun c hc => h c (List.mem_cons_of_mem b hc))]
    rfl

theorem onelevelKeeps_iff (base name val dn : String) (attrs : Entry) :
    onelevelKeeps base name val dn attrs = true ↔
      (endsL (',' :: base.data) dn.data = true ∧
       (stripEnds (',' :: base.data) dn.data).contains ',' = false ∧
       ∃ v, entryGet attrs name = some v ∧
         (pyEq v (.str val) = true ∨
          ∃ x, v = .list (.cons x .nil) ∧ pyEq x (.str val) = true)) := by
  unfold onelevelKeeps
  simp only [Bool.and_eq_true, Bool.not_eq_true', and_assoc]
  refine and_congr_right fun _ => and_congr_right fun _ => ?_
  cases hv : entryGet attrs name with
  | none => simp
  | some v =>
    simp only [Bool.or_eq_true]
    constructor
    · rintro (h1 | h2)
      · exact ⟨v, rfl, Or.inl h1⟩
      · cases v with
        | list vs =>
          cases vs with
          | nil => exact absurd h2 (by simp)
          | cons x tl =>
            cases tl with
            | nil => exact ⟨.list (.cons x .nil), rfl, Or.inr ⟨x, rfl, h2⟩⟩
            | cons y tl2 => exact absurd h2 (by simp)
        | str s => exact absurd h2 (by simp)
        | int n => exact absurd h2 (by simp)
        | pnone => exact absurd h2 (by simp)
        | obj t => exact absurd h2 (by simp)
        | ctrl cc => exact absurd h2 (by simp)
        | tup vs => exact absurd h2 (by simp)
        | dict kvs => exact absurd h2 (by simp)
    · rintro ⟨v2, hv2, h3 | ⟨x, hx, h3⟩⟩
      · injection hv2 with hv3
        subst hv3
        exact Or.inl h3
      · injection hv2 with hv3
        subst hv3
        subst hx
        exact Or.inr h3

/-- C4 counterexample: `_simple_onelevel_search` tests "one level down" with
`dn.strip(',' + base)`, a strip by character SET: for base `dc=x` the strip
set is the characters of `,dc=x`, which erases the whole middle component
of `cn=y,x=x,dc=x`, so this dn - two RDN components below the base, not
one - IS returned by a one-level search, refuting the claim that exactly
the direct children are returned. -/
theorem C4_onelevel_search_returns_grandchild :
    mockSearchS [("cn=y,x=x,dc=x", [("cn", PyVal.str "y")])] "dc=x" 1 "(cn=y)" =
      .ok (resultsToPy [("cn=y,x=x,dc=x", [("cn", PyVal.str "y")])]) ∧
    (splitChar ',' "cn=y,x=x,dc=x".data).length ≠
      (splitChar ',' "dc=x".data).length + 1 :=
  ⟨rfl, by decide⟩

/-- C4 (amended): for a single-clause filter built from a non-empty
word-character attribute name and a non-empty value free of `=` and
newlines, a one-level `search_s` returns exactly the entries accepted by
`onelevelKeeps`: the dn must end with `,` + base, the CHARACTER-SET strip
`dn.strip(',' + base)` must leave no comma (an approximation of "direct
child" that can also admit deeper descendants, and which is not the
RDN-count test the claim states), and the named attribute must equal the
filter value directly or as a one-element list. -/
theorem C4_onelevel_search_charset_strip :
    ∀ (d : Dir) (name val : String),
      name.data ≠ [] →
      (∀ c ∈ name.data, isWordChar c = true) →
      val.data ≠ [] →
      (∀ c ∈ val.data, c ≠ '\n' ∧ c ≠ '=') →
      ∀ (base : String),
        mockSearchS d base 1 ("(" ++ name ++ "=" ++ val ++ ")") =
          .ok (resultsToPy (d.filter (fun p =>
            onelevelKeeps base name val p.1 p.2))) ∧
        (∀ (dn : String) (attrs : Entry),
          (dn, attrs) ∈ d.filter (fun p => onelevelKeeps base name val p.1 p.2) ↔
          ((dn, attrs) ∈ d ∧
           endsL (',' :: base.data) dn.data = true ∧
           (stripEnds (',' :: base.data) dn.data).contains ',' = false ∧
           ∃ v, entryGet attrs name = some v ∧
             (pyEq v (.str val) = true ∨
              ∃ x, v = .list (.cons x .nil) ∧ pyEq x (.str val) = true))) := by
  intro d name val hne hword hvne hval base
  have hnameq : ∀ a ∈ name.data, a ≠ '=' := by
    intro a ha he
    have h0 := hword a ha
    rw [he] at h0
    exact absurd h0 (by decide)
  have hdata : ("(" ++ name ++ "=" ++ val ++ ")").data =
      ('(' :: (name.data ++ '=' :: val.data)) ++ [')'] := by
    simp [String.data_append]
  have h1 : name.data.isEmpty = false := by
    cases hn2 : name.data with
    | nil => exact absurd hn2 hne
    | cons a l => rfl
  have h2 : val.data.isEmpty = false := by
    cases hn2 : val.data with
    | nil => exact absurd hn2 hvne
    | cons a l => rfl
  have h3 : val.data.contains '\n' = false :=
    contains_eq_false_of (fun c hc => (hval c hc).1)
  have h4 := takeWhile_append_not isWordChar name.data '='
    (val.data ++ [')']) hword (by decide)
  have hmemnl : ('\n' ∉ val.data) := fun hm => (hval _ hm).1 rfl
  have hregex : regexMatchSimpleQuery ("(" ++ name ++ "=" ++ val ++ ")") = true := by
    unfold regexMatchSimpleQuery
    rw [hdata]
    simp only [List.cons_append, List.append_assoc, List.singleton_append]
    rw [show ('(' :: (name.data ++ '=' :: (val.data ++ [')']))).getLast? = some ')' from by
      rw [show ('(' :: (name.data ++ '=' :: (val.data ++ [')']))) =
          ('(' :: (name.data ++ '=' :: val.data)) ++ [')'] from by simp]
      exact List.getLast?_concat _]
    rw [if_neg (by decide)]
    simp only [List.head?_cons, List.tail_cons, h4, List.drop_left,
      List.getLast?_concat, List.dropLast_concat, h1, h2, h3]
    simp
  have hsearch : mockSearchS d base 1 ("(" ++ name ++ "=" ++ val ++ ")") =
      mockSimpleOnelevelSearch d base ("(" ++ name ++ "=" ++ val ++ ")") := by
    unfold mockSearchS
    rw [if_neg (by decide), if_pos rfl, hregex]
    rfl
  have hparse : mockSimpleOnelevelSearch d base ("(" ++ name ++ "=" ++ val ++ ")") =
      .ok (resultsToPy (d.filter (fun p => onelevelKeeps base name val p.1 p.2))) := by
    unfold mockSimpleOnelevelSearch
    rw [hdata, List.cons_append]
    simp only [List.drop_succ_cons, List.drop_zero, List.dropLast_concat]
    rw [splitChar_append '=' name.data val.data hnameq,
      splitChar_no_sep '=' val.data (fun a ha => (hval a ha).2)]
  refine ⟨hsearch.trans hparse, fun dn attrs => ?_⟩
  simp only [List.mem_filter, onelevelKeeps_iff]

theorem C4_onelevel_search_charset_strip_witness :
    mockSearchS
      [("ou=users,dc=30loops,dc=net", [("ou", PyVal.str "users")]),
       ("cn=jack,ou=users,dc=30loops,dc=net",
         [("mail", PyVal.list (PyList.ofList [.str "jack@example.com"]))]),
       ("cn=john,ou=users,dc=30loops,dc=net",
         [("mail", PyVal.str "john@example.com")])]
      "ou=users,dc=30loops,dc=net" 1 "(mail=jack@example.com)" =
      .ok (resultsToPy [("cn=jack,ou=users,dc=30loops,dc=net",
        [("mail", PyVal.list (PyList.ofList [.str "jack@example.com"]))])]) :=
  ((C4_onelevel_search_charset_strip
      [("ou=users,dc=30loops,dc=net", [("ou", PyVal.str "users")]),
       ("cn=jack,ou=users,dc=30loops,dc=net",
         [("mail", PyVal.list (PyList.ofList [.str "jack@example.com"]))]),
       ("cn=john,ou=users,dc=30loops,dc=net",
         [("mail", PyVal.str "john@example.com")])]
      "mail" "jack@example.com"
      (by decide) (by decide) (by decide) (by decide)
      "ou=users,dc=30loops,dc=net").1).trans (by rfl)

theorem C6_bind_succeeds_witness :
    (mockSimpleBindS false
      [("cn=admin,dc=30loops,dc=net", [("userPassword", PyVal.str "ldaptest")])]
      "cn=admin,dc=30loops,dc=net" "ldaptest").1 = .ok marker97 :=
  (C6_bind_succeeds_iff_userPassword_contains_cred false
    [("cn=admin,dc=30loops,dc=net", [("userPassword", PyVal.str "ldaptest")])]
    "cn=admin,dc=30loops,dc=net" "ldaptest"
    (fun e v he hv => by
      injection he with h1
      subst h1
      injection hv with h2
      subst h2
      rfl)).1.mpr
    (Or.inr ⟨[("userPassword", PyVal.str "ldaptest")], PyVal.str "ldaptest",
      rfl, rfl, rfl⟩)
